import Mathlib

/-!
Verification of the release-asset resolution and installation-dispatch engine
of the Autonomix application tracker.

The development shallowly embeds the core Rust modules:
* `src/core/models.rs` — version comparator, install-format enumeration,
  release-asset classifier;
* `src/core/github_api.rs` — asset resolver (`find_best_asset`);
* `src/core/installer.rs` — installation dispatcher, modelled as a pure
  function from an environment (process-invocation results, filesystem
  queries) to a result together with the trace of commands run and
  filesystem operations performed.

Strings are modelled as Lean `String` (a wrapper around `List Char`);
the Rust byte-wise string functions are reimplemented over `String.data`.
-/

set_option maxRecDepth 4000

/-! ### String helpers (Rust `str` methods used by the core) -/

/-- Rust `str::to_lowercase` restricted to the ASCII range, as a map over
the characters; the asset names and version strings the code handles are
ASCII. -/
def lowerChars (l : List Char) : List Char := l.map Char.toLower

/-- Rust `str::contains(substring)`: `sub` occurs contiguously in `l`. -/
def containsChars (l sub : List Char) : Bool := decide (sub <:+: l)

/-- Rust `str::ends_with(suffix)`. -/
def listEndsWith (l s : List Char) : Bool := decide (s <:+ l)

/-- Rust `str::trim_start_matches(c)` for a character pattern: repeatedly
strip the leading character `c`. -/
def trimLeadingChar (c : Char) : List Char → List Char
  | [] => []
  | x :: xs => if x = c then trimLeadingChar c xs else x :: xs

/-- Fuelled worker for `trimTrailing`. -/
def trimTrailingAux (pat : List Char) : Nat → List Char → List Char
  | 0, s => s
  | n + 1, s =>
    if pat.isEmpty then s
    else if listEndsWith s pat then trimTrailingAux pat n (s.take (s.length - pat.length))
    else s

/-- Rust `str::trim_end_matches(pat)` for a string pattern: repeatedly
strip the suffix `pat`.  Each step removes at least one character, so
`s.length` steps of fuel suffice. -/
def trimTrailing (pat s : List Char) : List Char := trimTrailingAux pat s.length s

/-- Split a character list at every occurrence of `c` (Rust `str::split(c)`;
used for the dot-separated identifiers of a semantic version). -/
def splitOnCharAux (c : Char) : List Char → List Char → List (List Char)
  | [], acc => [acc.reverse]
  | x :: xs, acc =>
    if x = c then acc.reverse :: splitOnCharAux c xs []
    else splitOnCharAux c xs (x :: acc)

/-- Split a character list on a separator character. -/
def splitOnChar (c : Char) (l : List Char) : List (List Char) := splitOnCharAux c l []

/-- Numeric value of a digit string (caller guarantees all characters are
decimal digits). -/
def digitsToNat (l : List Char) : Nat := l.foldl (fun n c => n * 10 + (c.toNat - 48)) 0

/-- Byte-wise lexicographic comparison of two ASCII strings, as Rust's
`Ord for str` (for ASCII, code-point order coincides with byte order). -/
def cmpCharList : List Char → List Char → Ordering
  | [], [] => Ordering.eq
  | [], _ :: _ => Ordering.lt
  | _ :: _, [] => Ordering.gt
  | a :: as, b :: bs =>
    match compare a b with
    | Ordering.eq => cmpCharList as bs
    | o => o

/-! ### Version comparator (`src/core/models.rs`) -/

/-- `normalize_version`: strip leading `v`s, then leading `V`s, then
lower-case (Rust `trim_start_matches('v').trim_start_matches('V').to_lowercase()`). -/
def normalize_version (version : String) : String :=
  ⟨lowerChars (trimLeadingChar 'V' (trimLeadingChar 'v' version.data))⟩

/-- A pre-release identifier of a semantic version: numeric identifiers
compare numerically and below alphanumeric ones. -/
inductive PreIdent where
  | numeric (n : Nat)
  | alphanum (s : List Char)
deriving DecidableEq

/-- A parsed semantic version (major.minor.patch with optional pre-release
and build metadata). -/
structure SemVer where
  major : Nat
  minor : Nat
  patch : Nat
  pre : List PreIdent
  build : List (List Char)
deriving DecidableEq

/-- Characters allowed in semver pre-release/build identifiers:
ASCII alphanumerics and hyphen. -/
def isIdentChar (c : Char) : Bool := c.isAlpha || c.isDigit || c = '-'

/-- Modelled from the spec: the third-party `semver` crate's parsing of one
numeric field (major/minor/patch) — a non-empty all-digit string without a
leading zero (unless it is exactly "0"). -/
def parseNumericField (s : List Char) : Option Nat :=
  if s.isEmpty then none
  else if !(s.all Char.isDigit) then none
  else if s.length > 1 && decide (s.head? = some '0') then none
  else some (digitsToNat s)

/-- Modelled from the spec: one pre-release identifier of the `semver`
crate — non-empty, alphanumeric/hyphen characters, numeric identifiers
without leading zeros. -/
def parsePreIdent (s : List Char) : Option PreIdent :=
  if s.isEmpty then none
  else if !(s.all isIdentChar) then none
  else if s.all Char.isDigit then
    if s.length > 1 && decide (s.head? = some '0') then none
    else some (PreIdent.numeric (digitsToNat s))
  else some (PreIdent.alphanum s)

/-- Modelled from the spec: one build-metadata identifier of the `semver`
crate — non-empty, alphanumeric/hyphen characters (leading zeros allowed). -/
def parseBuildIdent (s : List Char) : Option (List Char) :=
  if s.isEmpty then none
  else if !(s.all isIdentChar) then none
  else some s

/-- Modelled from the spec: `semver::Version::parse` — requires all three of
major.minor.patch, then an optional `-pre` and `+build` part, consuming the
whole string. -/
def semverParse (s : List Char) : Option SemVer :=
  let majS := s.takeWhile Char.isDigit
  match s.dropWhile Char.isDigit with
  | '.' :: r2 =>
    let minS := r2.takeWhile Char.isDigit
    match r2.dropWhile Char.isDigit with
    | '.' :: r4 =>
      let patS := r4.takeWhile Char.isDigit
      let r5 := r4.dropWhile Char.isDigit
      match parseNumericField majS, parseNumericField minS, parseNumericField patS with
      | some maj, some mino, some pat =>
        match r5 with
        | [] => some ⟨maj, mino, pat, [], []⟩
        | '-' :: r6 =>
          let preS := r6.takeWhile (fun c => decide (c ≠ '+'))
          match (splitOnChar '.' preS).mapM parsePreIdent with
          | none => none
          | some pre =>
            match r6.dropWhile (fun c => decide (c ≠ '+')) with
            | [] => some ⟨maj, mino, pat, pre, []⟩
            | '+' :: r7 =>
              match (splitOnChar '.' r7).mapM parseBuildIdent with
              | none => none
              | some build => some ⟨maj, mino, pat, pre, build⟩
            | _ => none
        | '+' :: r6 =>
          match (splitOnChar '.' r6).mapM parseBuildIdent with
          | none => none
          | some build => some ⟨maj, mino, pat, [], build⟩
        | _ => none
      | _, _, _ => none
    | _ => none
  | _ => none

/-- Semver precedence on a single pre-release identifier. -/
def cmpPreIdent : PreIdent → PreIdent → Ordering
  | PreIdent.numeric a, PreIdent.numeric b => compare a b
  | PreIdent.numeric _, PreIdent.alphanum _ => Ordering.lt
  | PreIdent.alphanum _, PreIdent.numeric _ => Ordering.gt
  | PreIdent.alphanum a, PreIdent.alphanum b => cmpCharList a b

/-- Identifier-list comparison: element-wise, a strict prefix is smaller. -/
def cmpIdentList (f : α → α → Ordering) : List α → List α → Ordering
  | [], [] => Ordering.eq
  | [], _ :: _ => Ordering.lt
  | _ :: _, [] => Ordering.gt
  | a :: as, b :: bs =>
    match f a b with
    | Ordering.eq => cmpIdentList f as bs
    | o => o

/-- Pre-release comparison: an empty pre-release (a normal release) has
higher precedence than any non-empty one. -/
def cmpPre : List PreIdent → List PreIdent → Ordering
  | [], [] => Ordering.eq
  | [], _ :: _ => Ordering.gt
  | _ :: _, [] => Ordering.lt
  | a :: as, b :: bs => cmpIdentList cmpPreIdent (a :: as) (b :: bs)

/-- Modelled from the spec: the `semver` crate's build-metadata tie-break —
all-digit identifiers compare numerically, otherwise lexically. -/
def cmpBuildIdent (a b : List Char) : Ordering :=
  if a.all Char.isDigit && b.all Char.isDigit then compare (digitsToNat a) (digitsToNat b)
  else cmpCharList a b

/-- Modelled from the spec: `semver::Version` ordering — major, minor,
patch numerically, then pre-release precedence, then build metadata as a
tie-break. -/
def cmpSemVer (a b : SemVer) : Ordering :=
  match compare a.major b.major with
  | Ordering.eq =>
    match compare a.minor b.minor with
    | Ordering.eq =>
      match compare a.patch b.patch with
      | Ordering.eq =>
        match cmpPre a.pre b.pre with
        | Ordering.eq => cmpIdentList cmpBuildIdent a.build b.build
        | o => o
      | o => o
    | o => o
  | o => o

/-- `is_newer_version`: normalize both strings; if both parse as semantic
versions compare with semver ordering, else fall back to lexicographic
string comparison (`new_norm > old_norm`). -/
def is_newer_version (new_version old_version : String) : Bool :=
  let new_norm := normalize_version new_version
  let old_norm := normalize_version old_version
  match semverParse new_norm.data, semverParse old_norm.data with
  | some new_sem, some old_sem => decide (cmpSemVer new_sem old_sem = Ordering.gt)
  | _, _ => decide (cmpCharList new_norm.data old_norm.data = Ordering.gt)

/-! ### Install-format enumeration (`src/core/models.rs`) -/

/-- `InstallType`: the closed seven-member enumeration of package formats. -/
inductive InstallType where
  | Deb
  | Rpm
  | AppImage
  | Flatpak
  | Snap
  | Binary
  | Source
deriving DecidableEq, Repr, Fintype

/-- `InstallType::from_str`: case-insensitive parse of a format name. -/
def InstallType.from_str (s : String) : Option InstallType :=
  let l : String := ⟨lowerChars s.data⟩
  if l = "deb" then some InstallType.Deb
  else if l = "rpm" then some InstallType.Rpm
  else if l = "appimage" then some InstallType.AppImage
  else if l = "flatpak" then some InstallType.Flatpak
  else if l = "snap" then some InstallType.Snap
  else if l = "binary" then some InstallType.Binary
  else if l = "source" then some InstallType.Source
  else none

/-- `InstallType::as_str`: canonical string representation. -/
def InstallType.as_str : InstallType → String
  | InstallType.Deb => "deb"
  | InstallType.Rpm => "rpm"
  | InstallType.AppImage => "appimage"
  | InstallType.Flatpak => "flatpak"
  | InstallType.Snap => "snap"
  | InstallType.Binary => "binary"
  | InstallType.Source => "source"

/-! ### Tracked applications (`src/core/models.rs`) -/

/-- `TrackedApp`: one tracked repository.  Timestamps are opaque to the
core logic and modelled as integers. -/
structure TrackedApp where
  id : Int
  repo_owner : String
  repo_name : String
  display_name : String
  installed_version : Option String
  latest_version : Option String
  install_type : Option InstallType
  last_checked : Option Int
  created_at : Int

/-- `TrackedApp::has_update`: both versions present, normalized forms
differ, and the latest is newer than the installed one. -/
def TrackedApp.has_update (app : TrackedApp) : Bool :=
  match app.installed_version, app.latest_version with
  | some installed, some latest =>
    decide (normalize_version latest ≠ normalize_version installed)
      && is_newer_version latest installed
  | _, _ => false

/-- `TrackedApp::is_installed`. -/
def TrackedApp.is_installed (app : TrackedApp) : Bool :=
  app.installed_version.isSome

/-- A `TrackedApp` with the given installed/latest versions and all other
fields at placeholder values (they do not influence `has_update`). -/
def mkVersionApp (installed latest : String) : TrackedApp :=
  ⟨0, "", "", "", some installed, some latest, none, none, 0⟩

/-! ### Release assets and the classifier (`src/core/models.rs`) -/

/-- `ReleaseAsset`: one downloadable file of a GitHub release. -/
structure ReleaseAsset where
  name : String
  browser_download_url : String
  content_type : String
  size : Nat
deriving DecidableEq

/-- `ReleaseAsset::detect_install_type`: ordered suffix match on the
lower-cased filename. -/
def ReleaseAsset.detect_install_type (a : ReleaseAsset) : Option InstallType :=
  let name_lower := lowerChars a.name.data
  if listEndsWith name_lower ".deb".data then some InstallType.Deb
  else if listEndsWith name_lower ".rpm".data then some InstallType.Rpm
  else if listEndsWith name_lower ".appimage".data then some InstallType.AppImage
  else if listEndsWith name_lower ".flatpak".data || listEndsWith name_lower ".flatpakref".data then
    some InstallType.Flatpak
  else if listEndsWith name_lower ".snap".data then some InstallType.Snap
  else if listEndsWith name_lower ".tar.gz".data || listEndsWith name_lower ".tar.xz".data
      || listEndsWith name_lower ".tar.bz2".data then
    some InstallType.Source
  else if !(name_lower.contains '.') || listEndsWith name_lower ".bin".data then
    some InstallType.Binary
  else none

/-- The host architecture reported by `std::env::consts::ARCH`, a
compile-time constant of the running binary; the resolver is parametric in
it. -/
inductive HostArch where
  | x86_64
  | aarch64
  | x86
  | other (name : String)
deriving DecidableEq

/-- The name fragments accepted for each host architecture
(`arch_patterns` in `matches_architecture`). -/
def archPatterns : HostArch → List String
  | HostArch.x86_64 => ["x86_64", "amd64", "x64", "linux64"]
  | HostArch.aarch64 => ["aarch64", "arm64"]
  | HostArch.x86 => ["i386", "i686", "x86", "linux32"]
  | HostArch.other a => [a]

/-- `ReleaseAsset::matches_architecture`: architecture-universal when the
lower-cased filename carries no architecture indicator, otherwise true iff
it contains one of the host's accepted fragments. -/
def ReleaseAsset.matches_architecture (a : ReleaseAsset) (arch : HostArch) : Bool :=
  let name_lower := lowerChars a.name.data
  let has_arch_indicator :=
    containsChars name_lower "x86".data
      || containsChars name_lower "amd64".data
      || containsChars name_lower "arm".data
      || containsChars name_lower "aarch".data
      || containsChars name_lower "i386".data
      || containsChars name_lower "i686".data
  if !has_arch_indicator then true
  else (archPatterns arch).any (fun p => containsChars name_lower p.data)

/-- `ReleaseAsset::is_linux`: exclude Windows/macOS markers, then accept
Linux-native package suffixes, an explicit "linux" fragment, or a generic
tar archive. -/
def ReleaseAsset.is_linux (a : ReleaseAsset) : Bool :=
  let name_lower := lowerChars a.name.data
  if containsChars name_lower "windows".data
      || containsChars name_lower ".exe".data
      || containsChars name_lower ".msi".data
      || containsChars name_lower "macos".data
      || containsChars name_lower "darwin".data
      || containsChars name_lower ".dmg".data then
    false
  else if listEndsWith name_lower ".deb".data
      || listEndsWith name_lower ".rpm".data
      || listEndsWith name_lower ".appimage".data
      || listEndsWith name_lower ".snap".data
      || listEndsWith name_lower ".flatpak".data then
    true
  else if containsChars name_lower "linux".data then true
  else if listEndsWith name_lower ".tar.gz".data
      || listEndsWith name_lower ".tar.xz".data
      || listEndsWith name_lower ".tar.bz2".data then
    true
  else false

/-! ### Asset resolver (`src/core/github_api.rs`, `find_best_asset`) -/

/-- The fixed priority order deb > rpm > appimage > flatpak > snap >
binary > source. -/
def priorityOrder : List InstallType :=
  [InstallType.Deb, InstallType.Rpm, InstallType.AppImage, InstallType.Flatpak,
   InstallType.Snap, InstallType.Binary, InstallType.Source]

/-- The filter step of `find_best_asset`: Linux-compatible,
architecture-matching assets, in input order. -/
def compatibleAssets (arch : HostArch) (assets : List ReleaseAsset) : List ReleaseAsset :=
  assets.filter (fun a => a.is_linux && a.matches_architecture arch)

/-- `GitHubApi::find_best_asset`: filter to compatible assets (none if the
result is empty), serve a preferred format when available, otherwise walk
the priority order, otherwise fall back to the first compatible asset. -/
def find_best_asset (arch : HostArch) (assets : List ReleaseAsset)
    (preferred_type : Option InstallType) : Option ReleaseAsset :=
  let compatible := compatibleAssets arch assets
  if compatible.isEmpty then none
  else
    match
      (match preferred_type with
       | some pref => compatible.find? (fun (a : ReleaseAsset) => decide (a.detect_install_type = some pref))
       | none => none) with
    | some a => some a
    | none =>
      match priorityOrder.findSome?
          (fun t => compatible.find? (fun (a : ReleaseAsset) => decide (a.detect_install_type = some t))) with
      | some a => some a
      | none => compatible.head?

/-- The first format of the priority order that some asset of the list
detects as; this is the format the priority walk of `find_best_asset`
stops at. -/
def firstPriorityMatch (c : List ReleaseAsset) : Option InstallType :=
  priorityOrder.find? (fun t => c.any (fun a => decide (a.detect_install_type = some t)))

/-- An asset whose only populated field is its filename (the classifier and
resolver read nothing else). -/
def mkAsset (name : String) : ReleaseAsset := ⟨name, "", "", 0⟩

/-! ### Installation dispatcher (`src/core/installer.rs`)

The dispatcher is modelled as a pure function of an environment `Env`
supplying the outcome of every external-process invocation and the
filesystem queries the code performs.  Alongside its `Result`, each
operation returns the trace of commands it ran and of the mutating
filesystem operations it performed; filesystem mutations themselves are
assumed to succeed (I/O errors of `std::fs` are outside the model). -/

/-- One external-process invocation (program and arguments). -/
structure Cmd where
  program : String
  args : List String
deriving DecidableEq

/-- A mutating filesystem operation performed by an install/uninstall
strategy. -/
inductive FsOp where
  | copyFile (src dest : String)
  | setExecutable (p : String)
  | createDirAll (p : String)
  | writeFile (p content : String)
  | removeFile (p : String)
deriving DecidableEq

/-- The host environment: `run c` is `none` when the process could not be
spawned and `some b` when it exited with success flag `b`; `readDir`,
`fileExists`, `home_dir` and `data_dir` model the filesystem queries. -/
structure Env where
  run : Cmd → Option Bool
  readDir : String → Option (List String)
  fileExists : String → Bool
  home_dir : Option String
  data_dir : Option String

/-- The `Installer` struct (its two directories). -/
structure Installer where
  downloads_dir : String
  appimage_dir : String

deriving instance DecidableEq for Except

/-- Result of one install/uninstall operation: the `Result` value, the
commands invoked, and the filesystem mutations performed, in order. -/
structure StepResult where
  result : Except String Unit
  cmds : List Cmd
  fsOps : List FsOp
deriving DecidableEq

/-- Join two path segments (Rust `PathBuf::join` for relative segments). -/
def pathJoin (a b : String) : String := a ++ "/" ++ b

/-- Rust `Path::file_name`: the final path component, `none` when there is
none (empty path, root, or a trailing `..`). -/
def fileName (p : String) : Option String :=
  match ((splitOnChar '/' p.data).filter (fun c => !c.isEmpty)).getLast? with
  | none => none
  | some c => if c = "..".data then none else some (⟨c⟩ : String)

/-- `pkexec dpkg -i <path>`. -/
def dpkgInstallCmd (path : String) : Cmd := ⟨"pkexec", ["dpkg", "-i", path]⟩

/-- `pkexec apt-get install -f -y` (the dependency-repair pass). -/
def aptFixCmd : Cmd := ⟨"pkexec", ["apt-get", "install", "-f", "-y"]⟩

/-- `which <tool>` (availability probe). -/
def whichCmd (tool : String) : Cmd := ⟨"which", [tool]⟩

/-- `pkexec dnf install -y <path>`. -/
def dnfInstallCmd (path : String) : Cmd := ⟨"pkexec", ["dnf", "install", "-y", path]⟩

/-- `pkexec rpm -i --force <path>`. -/
def rpmInstallCmd (path : String) : Cmd := ⟨"pkexec", ["rpm", "-i", "--force", path]⟩

/-- `flatpak install --user -y <path>` (remote-reference mode). -/
def flatpakRefCmd (path : String) : Cmd := ⟨"flatpak", ["install", "--user", "-y", path]⟩

/-- `flatpak install --user -y --bundle <path>`. -/
def flatpakBundleCmd (path : String) : Cmd :=
  ⟨"flatpak", ["install", "--user", "-y", "--bundle", path]⟩

/-- `pkexec snap install --dangerous <path>`. -/
def snapInstallCmd (path : String) : Cmd := ⟨"pkexec", ["snap", "install", "--dangerous", path]⟩

/-- `Installer::install_deb`: run `pkexec dpkg -i`; on a non-zero exit run
the dependency-repair pass once and fail only if that also fails. -/
def Installer.install_deb (_inst : Installer) (env : Env) (path : String) : StepResult :=
  match env.run (dpkgInstallCmd path) with
  | none => ⟨Except.error "Failed to run pkexec dpkg", [dpkgInstallCmd path], []⟩
  | some true => ⟨Except.ok (), [dpkgInstallCmd path], []⟩
  | some false =>
    match env.run aptFixCmd with
    | some true => ⟨Except.ok (), [dpkgInstallCmd path, aptFixCmd], []⟩
    | _ => ⟨Except.error "Failed to install deb package", [dpkgInstallCmd path, aptFixCmd], []⟩

/-- The package tool `install_rpm` settles on: `dnf` when the `which dnf`
probe succeeds, legacy `rpm` otherwise. -/
def rpmChosenCmd (env : Env) (path : String) : Cmd :=
  if (env.run (whichCmd "dnf")).getD false then dnfInstallCmd path else rpmInstallCmd path

/-- `Installer::install_rpm`: probe for `dnf`, then a single install
attempt with the chosen tool; fail on its first non-zero exit. -/
def Installer.install_rpm (_inst : Installer) (env : Env) (path : String) : StepResult :=
  let dnf_available := (env.run (whichCmd "dnf")).getD false
  match env.run (rpmChosenCmd env path) with
  | none =>
    ⟨Except.error (if dnf_available then "Failed to run pkexec dnf" else "Failed to run pkexec rpm"),
     [whichCmd "dnf", rpmChosenCmd env path], []⟩
  | some true => ⟨Except.ok (), [whichCmd "dnf", rpmChosenCmd env path], []⟩
  | some false =>
    ⟨Except.error "Failed to install rpm package", [whichCmd "dnf", rpmChosenCmd env path], []⟩

/-- The derived desktop-entry base name of an AppImage file: the filename
with its `.AppImage`/`.appimage` suffixes stripped. -/
def appimageBaseName (filename : String) : String :=
  ⟨trimTrailing ".appimage".data (trimTrailing ".AppImage".data filename.data)⟩

/-- The display name written into the desktop entry: suffixes stripped and
separators replaced by spaces. -/
def appimageCleanName (filename : String) : String :=
  ⟨(appimageBaseName filename).data.map
    (fun c => if c = '-' then ' ' else if c = '_' then ' ' else c)⟩

/-- The contents of the generated desktop-integration entry. -/
def desktopEntryContent (clean_name dest : String) : String :=
  "[Desktop Entry]\nType=Application\nName=" ++ clean_name ++ "\nExec=\"" ++ dest
    ++ "\"\nTerminal=false\nCategories=Utility;\n"

/-- `Installer::install_appimage`: copy into the per-user AppImage
directory, set executable bits, and generate a desktop entry in the user's
applications directory. -/
def Installer.install_appimage (inst : Installer) (env : Env) (path : String) : StepResult :=
  match fileName path with
  | none => ⟨Except.error "Invalid AppImage path", [], []⟩
  | some filename =>
    let dest := pathJoin inst.appimage_dir filename
    match env.data_dir with
    | none =>
      ⟨Except.error "Could not find data directory", [],
       [FsOp.copyFile path dest, FsOp.setExecutable dest]⟩
    | some dd =>
      let applications_dir := pathJoin dd "applications"
      let desktop_file := pathJoin applications_dir (appimageBaseName filename ++ ".desktop")
      ⟨Except.ok (), [],
       [FsOp.copyFile path dest, FsOp.setExecutable dest,
        FsOp.createDirAll applications_dir,
        FsOp.writeFile desktop_file (desktopEntryContent (appimageCleanName filename) dest)]⟩

/-- The flatpak invocation `install_flatpak` settles on: remote-reference
mode for a `.flatpakref` path, bundle mode otherwise (this check is
case-sensitive on the path). -/
def flatpakChosenCmd (path : String) : Cmd :=
  if listEndsWith path.data ".flatpakref".data then flatpakRefCmd path else flatpakBundleCmd path

/-- `Installer::install_flatpak`: a single per-user install invocation;
fail on its first non-zero exit. -/
def Installer.install_flatpak (_inst : Installer) (env : Env) (path : String) : StepResult :=
  let isRef := listEndsWith path.data ".flatpakref".data
  match env.run (flatpakChosenCmd path) with
  | none => ⟨Except.error "Failed to run flatpak install", [flatpakChosenCmd path], []⟩
  | some true => ⟨Except.ok (), [flatpakChosenCmd path], []⟩
  | some false =>
    ⟨Except.error (if isRef then "Failed to install flatpakref" else "Failed to install flatpak bundle"),
     [flatpakChosenCmd path], []⟩

/-- `Installer::install_snap`: a single elevated `--dangerous` install;
fail on its first non-zero exit. -/
def Installer.install_snap (_inst : Installer) (env : Env) (path : String) : StepResult :=
  match env.run (snapInstallCmd path) with
  | none => ⟨Except.error "Failed to run snap install", [snapInstallCmd path], []⟩
  | some true => ⟨Except.ok (), [snapInstallCmd path], []⟩
  | some false => ⟨Except.error "Failed to install snap package", [snapInstallCmd path], []⟩

/-- `Installer::install_binary`: copy into `~/.local/bin` and set
executable bits; no external command. -/
def Installer.install_binary (_inst : Installer) (env : Env) (path : String) : StepResult :=
  match env.home_dir with
  | none => ⟨Except.error "Could not find home directory", [], []⟩
  | some home =>
    let bin_dir := pathJoin (pathJoin home ".local") "bin"
    match fileName path with
    | none => ⟨Except.error "Invalid binary path", [], [FsOp.createDirAll bin_dir]⟩
    | some filename =>
      let dest := pathJoin bin_dir filename
      ⟨Except.ok (), [],
       [FsOp.createDirAll bin_dir, FsOp.copyFile path dest, FsOp.setExecutable dest]⟩

/-- `Installer::install`: dispatch on the format; `Source` is
unconditionally unsupported. -/
def Installer.install (inst : Installer) (env : Env) (path : String) :
    InstallType → StepResult
  | InstallType.Deb => inst.install_deb env path
  | InstallType.Rpm => inst.install_rpm env path
  | InstallType.AppImage => inst.install_appimage env path
  | InstallType.Flatpak => inst.install_flatpak env path
  | InstallType.Snap => inst.install_snap env path
  | InstallType.Binary => inst.install_binary env path
  | InstallType.Source => ⟨Except.error "Source installation not yet supported", [], []⟩

/-- `pkexec dpkg -r <name>`. -/
def dpkgRemoveCmd (name : String) : Cmd := ⟨"pkexec", ["dpkg", "-r", name]⟩

/-- `pkexec dnf remove -y <name>`. -/
def dnfRemoveCmd (name : String) : Cmd := ⟨"pkexec", ["dnf", "remove", "-y", name]⟩

/-- `pkexec rpm -e <name>`. -/
def rpmRemoveCmd (name : String) : Cmd := ⟨"pkexec", ["rpm", "-e", name]⟩

/-- `flatpak uninstall --user -y <name>`. -/
def flatpakRemoveCmd (name : String) : Cmd := ⟨"flatpak", ["uninstall", "--user", "-y", name]⟩

/-- `pkexec snap remove <name>`. -/
def snapRemoveCmd (name : String) : Cmd := ⟨"pkexec", ["snap", "remove", name]⟩

/-- `Installer::uninstall_deb`: a single elevated removal by package name. -/
def Installer.uninstall_deb (_inst : Installer) (env : Env) (package_name : String) : StepResult :=
  match env.run (dpkgRemoveCmd package_name) with
  | none => ⟨Except.error "Failed to run pkexec dpkg -r", [dpkgRemoveCmd package_name], []⟩
  | some true => ⟨Except.ok (), [dpkgRemoveCmd package_name], []⟩
  | some false => ⟨Except.error "Failed to uninstall deb package", [dpkgRemoveCmd package_name], []⟩

/-- `Installer::uninstall_rpm`: probe for `dnf`, then a single removal with
the chosen tool. -/
def Installer.uninstall_rpm (_inst : Installer) (env : Env) (package_name : String) : StepResult :=
  let dnf_available := (env.run (whichCmd "dnf")).getD false
  let c := if dnf_available then dnfRemoveCmd package_name else rpmRemoveCmd package_name
  match env.run c with
  | none =>
    ⟨Except.error (if dnf_available then "Failed to run pkexec dnf remove" else "Failed to run pkexec rpm -e"),
     [whichCmd "dnf", c], []⟩
  | some true => ⟨Except.ok (), [whichCmd "dnf", c], []⟩
  | some false => ⟨Except.error "Failed to uninstall rpm package", [whichCmd "dnf", c], []⟩

/-- One directory entry step of `uninstall_appimage`: remove a
case-insensitive filename match and its desktop entry. -/
def uninstallAppimageStep (inst : Installer) (env : Env) (package_name : String)
    (acc : List FsOp × Bool) (fname : String) : List FsOp × Bool :=
  if containsChars (lowerChars fname.data) (lowerChars package_name.data) then
    let ops := acc.1 ++ [FsOp.removeFile (pathJoin inst.appimage_dir fname)]
    let ops :=
      match env.data_dir with
      | some dd =>
        let desktop_file :=
          pathJoin (pathJoin dd "applications") (appimageBaseName fname ++ ".desktop")
        if env.fileExists desktop_file then ops ++ [FsOp.removeFile desktop_file] else ops
      | none => ops
    (ops, true)
  else acc

/-- `Installer::uninstall_appimage`: scan the AppImage directory for
case-insensitive matches of the name, removing each match and its desktop
entry; fail when nothing matched (an unreadable directory scans as empty). -/
def Installer.uninstall_appimage (inst : Installer) (env : Env) (package_name : String) :
    StepResult :=
  let entries := (env.readDir inst.appimage_dir).getD []
  let scanned := entries.foldl (uninstallAppimageStep inst env package_name) ([], false)
  if scanned.2 then ⟨Except.ok (), [], scanned.1⟩
  else ⟨Except.error ("AppImage not found: " ++ package_name), [], scanned.1⟩

/-- `Installer::uninstall_flatpak`: a single per-user removal by
application id. -/
def Installer.uninstall_flatpak (_inst : Installer) (env : Env) (package_name : String) :
    StepResult :=
  match env.run (flatpakRemoveCmd package_name) with
  | none => ⟨Except.error "Failed to run flatpak uninstall", [flatpakRemoveCmd package_name], []⟩
  | some true => ⟨Except.ok (), [flatpakRemoveCmd package_name], []⟩
  | some false =>
    ⟨Except.error "Failed to uninstall flatpak package", [flatpakRemoveCmd package_name], []⟩

/-- `Installer::uninstall_snap`: a single elevated removal by name. -/
def Installer.uninstall_snap (_inst : Installer) (env : Env) (package_name : String) : StepResult :=
  match env.run (snapRemoveCmd package_name) with
  | none => ⟨Except.error "Failed to run snap remove", [snapRemoveCmd package_name], []⟩
  | some true => ⟨Except.ok (), [snapRemoveCmd package_name], []⟩
  | some false => ⟨Except.error "Failed to uninstall snap package", [snapRemoveCmd package_name], []⟩

/-- `Installer::uninstall_binary`: remove `~/.local/bin/<name>` when it
exists, fail "not found" otherwise. -/
def Installer.uninstall_binary (_inst : Installer) (env : Env) (package_name : String) :
    StepResult :=
  match env.home_dir with
  | none => ⟨Except.error "Could not find home directory", [], []⟩
  | some home =>
    let binary_path := pathJoin (pathJoin (pathJoin home ".local") "bin") package_name
    if env.fileExists binary_path then ⟨Except.ok (), [], [FsOp.removeFile binary_path]⟩
    else ⟨Except.error ("Binary not found: " ++ binary_path), [], []⟩

/-- `Installer::uninstall`: dispatch on the format; `Source` is
unconditionally unsupported. -/
def Installer.uninstall (inst : Installer) (env : Env) (package_name : String) :
    InstallType → StepResult
  | InstallType.Deb => inst.uninstall_deb env package_name
  | InstallType.Rpm => inst.uninstall_rpm env package_name
  | InstallType.AppImage => inst.uninstall_appimage env package_name
  | InstallType.Flatpak => inst.uninstall_flatpak env package_name
  | InstallType.Snap => inst.uninstall_snap env package_name
  | InstallType.Binary => inst.uninstall_binary env package_name
  | InstallType.Source => ⟨Except.error "Source uninstallation not supported", [], []⟩

/-- An environment in which every process invocation spawns and exits
non-zero, directory listings are empty, and no file exists. -/
def envAllFail : Env :=
  { run := fun _ => some false
    readDir := fun _ => some []
    fileExists := fun _ => false
    home_dir := some "/home/user"
    data_dir := some "/home/user/.local/share" }

/-- A concrete installer instance for witnesses. -/
def testInstaller : Installer :=
  ⟨"/home/user/.local/share/autonomix/downloads", "/home/user/.local/share/autonomix/appimages"⟩

/-! ### Helper lemmas -/

lemma listEndsWith_iff {l s : List Char} : listEndsWith l s = true ↔ s <:+ l := by
  simp [listEndsWith]

/-- A suffix shorter than an established suffix of `l` but not a suffix of
it cannot be a suffix of `l`. -/
lemma listEndsWith_excl (t : List Char) {l s : List Char} (h : listEndsWith l s = true)
    (hlen : t.length ≤ s.length) (hts : listEndsWith s t = false) :
    listEndsWith l t = false := by
  rw [listEndsWith, decide_eq_false_iff_not]
  intro htl
  have hs : s <:+ l := listEndsWith_iff.mp h
  rcases List.suffix_or_suffix_of_suffix htl hs with hst | hst
  · rw [listEndsWith, decide_eq_false_iff_not] at hts
    exact hts hst
  · have hts' : s = t := hst.eq_of_length_le hlen
    rw [listEndsWith, decide_eq_false_iff_not] at hts
    exact hts (hts' ▸ List.suffix_refl t)

/-- When the priority walk's guard (`find?` over the priority list with the
any-asset test) finds format `t` first, the walk itself (`findSome?` of the
per-format `find?`) returns the first asset of format `t`. -/
lemma findSome_eq_find_of_first_match (c : List ReleaseAsset) (ts : List InstallType)
    (t : InstallType)
    (h : ts.find? (fun u => c.any (fun a => decide (a.detect_install_type = some u))) = some t) :
    ts.findSome? (fun u => c.find? (fun a => decide (a.detect_install_type = some u)))
      = c.find? (fun a => decide (a.detect_install_type = some t)) := by
  induction ts with
  | nil => simp at h
  | cons u ts ih =>
    cases hany : c.any (fun a => decide (a.detect_install_type = some u)) with
    | true =>
      have ht : u = t := by
        rw [List.find?_cons_of_pos ts hany] at h
        exact Option.some_inj.mp h
      subst ht
      have hsome : (c.find? (fun a => decide (a.detect_install_type = some u))).isSome :=
        List.find?_isSome.mpr (List.any_eq_true.mp hany)
      rw [List.findSome?_cons_of_isSome ts hsome]
    | false =>
      have hnone : c.find? (fun a => decide (a.detect_install_type = some u)) = none :=
        List.find?_eq_none.mpr (fun x hx => by
          have := List.any_eq_false.mp hany x hx
          simpa using this)
      have h' := h
      rw [List.find?_cons_of_neg ts (by simp [hany])] at h'
      rw [List.findSome?_cons_of_isNone ts (by simp [hnone])]
      exact ih h'

/-- Every asset the resolver returns passed the compatibility filter. -/
lemma mem_compat_of_find_best_asset {arch : HostArch} {assets : List ReleaseAsset}
    {pref : Option InstallType} {r : ReleaseAsset}
    (h : find_best_asset arch assets pref = some r) :
    r ∈ compatibleAssets arch assets := by
  by_cases hemp : (compatibleAssets arch assets).isEmpty = true
  · simp [find_best_asset, hemp] at h
  · have hwalk : ∀ b : ReleaseAsset, priorityOrder.findSome?
        (fun t => (compatibleAssets arch assets).find?
          (fun a => decide (a.detect_install_type = some t))) = some b →
        b ∈ compatibleAssets arch assets := by
      intro b hw
      obtain ⟨u, _, hfu⟩ := List.exists_of_findSome?_eq_some hw
      exact List.mem_of_find?_eq_some hfu
    cases pref with
    | none =>
      cases hw : priorityOrder.findSome?
          (fun t => (compatibleAssets arch assets).find?
            (fun a => decide (a.detect_install_type = some t))) with
      | some b =>
        simp [find_best_asset, hemp, hw] at h
        subst h
        exact hwalk _ hw
      | none =>
        simp [find_best_asset, hemp, hw] at h
        obtain ⟨ys, hys⟩ := List.head?_eq_some_iff.mp h
        rw [hys]
        exact List.mem_cons_self _ _
    | some p =>
      cases hf : (compatibleAssets arch assets).find?
          (fun a => decide (a.detect_install_type = some p)) with
      | some b =>
        simp [find_best_asset, hemp, hf] at h
        subst h
        exact List.mem_of_find?_eq_some hf
      | none =>
        cases hw : priorityOrder.findSome?
            (fun t => (compatibleAssets arch assets).find?
              (fun a => decide (a.detect_install_type = some t))) with
        | some b =>
          simp [find_best_asset, hemp, hf, hw] at h
          subst h
          exact hwalk _ hw
        | none =>
          simp [find_best_asset, hemp, hf, hw] at h
          obtain ⟨ys, hys⟩ := List.head?_eq_some_iff.mp h
          rw [hys]
          exact List.mem_cons_self _ _

/-- Every asset the resolver returns is Linux-compatible and matches the
host architecture. -/
lemma compat_props_of_find_best_asset {arch : HostArch} {assets : List ReleaseAsset}
    {pref : Option InstallType} {r : ReleaseAsset}
    (h : find_best_asset arch assets pref = some r) :
    r.is_linux = true ∧ r.matches_architecture arch = true := by
  have hmem := mem_compat_of_find_best_asset h
  rw [compatibleAssets] at hmem
  have := (List.mem_filter.mp hmem).2
  simpa using this

/-! ### Claims -/

/-- C4: for every pair of present version strings, `has_update` is true iff
the normalized forms differ and the latest is newer than the installed one;
moreover `is_newer("v1.2.0","v1.1.0")` is true, `is_newer("1.1.0","v1.1.0")`
is false, and `has_update("v1.1.0","v1.1.0")` is false. -/
theorem has_update_iff_normalized_differ_and_newer (app : TrackedApp) (i l : String)
    (hi : app.installed_version = some i) (hl : app.latest_version = some l) :
    (app.has_update = true
      ↔ (normalize_version l ≠ normalize_version i ∧ is_newer_version l i = true))
    ∧ is_newer_version "v1.2.0" "v1.1.0" = true
    ∧ is_newer_version "1.1.0" "v1.1.0" = false
    ∧ (mkVersionApp "v1.1.0" "v1.1.0").has_update = false := by
  refine ⟨?_, by decide, by decide, by decide⟩
  simp [TrackedApp.has_update, hi, hl]

theorem has_update_iff_normalized_differ_and_newer_witness :
    ((mkVersionApp "1.0.0" "1.1.0").has_update = true
      ↔ (normalize_version "1.1.0" ≠ normalize_version "1.0.0"
          ∧ is_newer_version "1.1.0" "1.0.0" = true))
    ∧ is_newer_version "v1.2.0" "v1.1.0" = true
    ∧ is_newer_version "1.1.0" "v1.1.0" = false
    ∧ (mkVersionApp "v1.1.0" "v1.1.0").has_update = false :=
  has_update_iff_normalized_differ_and_newer (mkVersionApp "1.0.0" "1.1.0") "1.0.0" "1.1.0" rfl rfl

/-- C5 counterexample: for installed "2" and latest "2.0" (both unparseable
as semantic versions), `has_update` reports an update — the equality
short-circuit does not fire because the normalized forms "2" and "2.0" are
textually distinct, and the lexicographic fallback deems "2.0" newer. -/
theorem has_update_two_vs_two_point_zero : (mkVersionApp "2" "2.0").has_update = true := by
  decide

/-- C5 amended: the equality short-circuit treats a version pair as
no-update only when the normalized forms are textually equal; unparseable
strings that are semantically equal but textually distinct, such as
installed "2" and latest "2.0", fall through to the lexicographic fallback
and are reported as an update. -/
theorem has_update_equality_short_circuit (app : TrackedApp) (i l : String)
    (hi : app.installed_version = some i) (hl : app.latest_version = some l)
    (heq : normalize_version l = normalize_version i) :
    app.has_update = false ∧ (mkVersionApp "2" "2.0").has_update = true := by
  refine ⟨?_, by decide⟩
  simp [TrackedApp.has_update, hi, hl, heq]

theorem has_update_equality_short_circuit_witness :
    (mkVersionApp "v1.0" "1.0").has_update = false
    ∧ (mkVersionApp "2" "2.0").has_update = true :=
  has_update_equality_short_circuit (mkVersionApp "v1.0" "1.0") "v1.0" "1.0" rfl rfl (by decide)

/-- C8: install and uninstall on the `Source` format always return the
unsupported-format error, run no external command, and perform no
filesystem mutation, for every environment, path and package name. -/
theorem source_format_unsupported (inst : Installer) (env : Env) (path package_name : String) :
    inst.install env path InstallType.Source
      = ⟨Except.error "Source installation not yet supported", [], []⟩
    ∧ inst.uninstall env package_name InstallType.Source
      = ⟨Except.error "Source uninstallation not supported", [], []⟩ :=
  ⟨rfl, rfl⟩

/-- C10: converting any of the seven install formats to its string
representation and parsing it back yields the format itself, and a string
the parser does not recognize (its lower-cased form is none of the seven
names) parses to `none`. -/
theorem install_type_roundtrip :
    (∀ t : InstallType, InstallType.from_str t.as_str = some t)
    ∧ ∀ s : String,
        (∀ t : InstallType, (⟨lowerChars s.data⟩ : String) ≠ t.as_str) →
        InstallType.from_str s = none := by
  refine ⟨fun t => by cases t <;> rfl, fun s h => ?_⟩
  simp only [InstallType.from_str]
  rw [if_neg (show (⟨lowerChars s.data⟩ : String) ≠ "deb" from h InstallType.Deb),
    if_neg (show (⟨lowerChars s.data⟩ : String) ≠ "rpm" from h InstallType.Rpm),
    if_neg (show (⟨lowerChars s.data⟩ : String) ≠ "appimage" from h InstallType.AppImage),
    if_neg (show (⟨lowerChars s.data⟩ : String) ≠ "flatpak" from h InstallType.Flatpak),
    if_neg (show (⟨lowerChars s.data⟩ : String) ≠ "snap" from h InstallType.Snap),
    if_neg (show (⟨lowerChars s.data⟩ : String) ≠ "binary" from h InstallType.Binary),
    if_neg (show (⟨lowerChars s.data⟩ : String) ≠ "source" from h InstallType.Source)]

theorem install_type_roundtrip_witness :
    InstallType.from_str (InstallType.as_str InstallType.Flatpak) = some InstallType.Flatpak
    ∧ InstallType.from_str "tarball" = none :=
  ⟨install_type_roundtrip.1 InstallType.Flatpak, install_type_roundtrip.2 "tarball" (by decide)⟩

/-- C7: a filename with no architecture-indicating fragment is treated as
architecture-universal (matches every host), and a filename with such a
fragment matches exactly when it contains one of the host's accepted
fragments (x86_64 → x86_64/amd64/x64/linux64; aarch64 → aarch64/arm64;
x86 → i386/i686/x86/linux32), all checks on the lower-cased name. -/
theorem matches_architecture_universal_or_fragment (a : ReleaseAsset) :
    ((containsChars (lowerChars a.name.data) "x86".data
        || containsChars (lowerChars a.name.data) "amd64".data
        || containsChars (lowerChars a.name.data) "arm".data
        || containsChars (lowerChars a.name.data) "aarch".data
        || containsChars (lowerChars a.name.data) "i386".data
        || containsChars (lowerChars a.name.data) "i686".data) = false →
      ∀ arch : HostArch, a.matches_architecture arch = true)
    ∧ ((containsChars (lowerChars a.name.data) "x86".data
        || containsChars (lowerChars a.name.data) "amd64".data
        || containsChars (lowerChars a.name.data) "arm".data
        || containsChars (lowerChars a.name.data) "aarch".data
        || containsChars (lowerChars a.name.data) "i386".data
        || containsChars (lowerChars a.name.data) "i686".data) = true →
      (a.matches_architecture HostArch.x86_64
        = (containsChars (lowerChars a.name.data) "x86_64".data
            || containsChars (lowerChars a.name.data) "amd64".data
            || containsChars (lowerChars a.name.data) "x64".data
            || containsChars (lowerChars a.name.data) "linux64".data))
      ∧ (a.matches_architecture HostArch.aarch64
        = (containsChars (lowerChars a.name.data) "aarch64".data
            || containsChars (lowerChars a.name.data) "arm64".data))
      ∧ (a.matches_architecture HostArch.x86
        = (containsChars (lowerChars a.name.data) "i386".data
            || containsChars (lowerChars a.name.data) "i686".data
            || containsChars (lowerChars a.name.data) "x86".data
            || containsChars (lowerChars a.name.data) "linux32".data))) := by
  constructor
  · intro h arch
    simp only [ReleaseAsset.matches_architecture, h]
    rfl
  · intro h
    refine ⟨?_, ?_, ?_⟩ <;>
      · simp [ReleaseAsset.matches_architecture, h, archPatterns, Bool.or_assoc]
        intro h1 h2 h3 h4 h5 h6
        simp [h1, h2, h3, h4, h5, h6] at h

theorem matches_architecture_universal_or_fragment_witness :
    (mkAsset "app.tar.gz").matches_architecture HostArch.aarch64 = true
    ∧ (mkAsset "app-amd64.deb").matches_architecture HostArch.x86_64
        = (containsChars (lowerChars (mkAsset "app-amd64.deb").name.data) "x86_64".data
            || containsChars (lowerChars (mkAsset "app-amd64.deb").name.data) "amd64".data
            || containsChars (lowerChars (mkAsset "app-amd64.deb").name.data) "x64".data
            || containsChars (lowerChars (mkAsset "app-amd64.deb").name.data) "linux64".data) :=
  ⟨(matches_architecture_universal_or_fragment (mkAsset "app.tar.gz")).1 (by decide)
      HostArch.aarch64,
   ((matches_architecture_universal_or_fragment (mkAsset "app-amd64.deb")).2 (by decide)).1⟩

/-- C2: with a preferred format, the resolver returns the first compatible
asset of that format when one exists; otherwise the preference is ignored
and selection proceeds exactly as without a preference; for the single
asset `app.rpm` with preferred format Deb, it selects `app.rpm`. -/
theorem find_best_asset_preferred_format (arch : HostArch) (assets : List ReleaseAsset)
    (pref : InstallType) :
    (find_best_asset arch assets (some pref)
      = match (compatibleAssets arch assets).find?
            (fun a => decide (a.detect_install_type = some pref)) with
        | some a => some a
        | none => find_best_asset arch assets none)
    ∧ find_best_asset HostArch.x86_64 [mkAsset "app.rpm"] (some InstallType.Deb)
        = some (mkAsset "app.rpm") := by
  refine ⟨?_, by decide⟩
  by_cases hemp : (compatibleAssets arch assets).isEmpty = true
  · have hnil : compatibleAssets arch assets = [] := by simpa using hemp
    simp [find_best_asset, hemp, hnil]
  · cases hf : (compatibleAssets arch assets).find?
        (fun a => decide (a.detect_install_type = some pref)) with
    | some a => simp [find_best_asset, hemp, hf]
    | none => simp [find_best_asset, hemp, hf]

/-- C1: with no preferred format, when the first priority format matched by
any compatible asset is `t`, the resolver returns the first compatible
asset detecting as `t`; for the assets `app.rpm`, `app.deb`,
`app.AppImage` (all architecture-matching) it selects `app.deb`. -/
theorem find_best_asset_priority_order (arch : HostArch) (assets : List ReleaseAsset)
    (t : InstallType)
    (h : firstPriorityMatch (compatibleAssets arch assets) = some t) :
    find_best_asset arch assets none
      = (compatibleAssets arch assets).find? (fun a => decide (a.detect_install_type = some t))
    ∧ find_best_asset HostArch.x86_64
        [mkAsset "app.rpm", mkAsset "app.deb", mkAsset "app.AppImage"] none
      = some (mkAsset "app.deb") := by
  refine ⟨?_, by decide⟩
  have h' : priorityOrder.find?
      (fun u => (compatibleAssets arch assets).any
        (fun a => decide (a.detect_install_type = some u))) = some t := h
  have hp := List.find?_some h'
  have hw := findSome_eq_find_of_first_match (compatibleAssets arch assets) priorityOrder t h'
  obtain ⟨b, hb⟩ := Option.isSome_iff_exists.mp
    (List.find?_isSome.mpr (List.any_eq_true.mp hp))
  have hne : compatibleAssets arch assets ≠ [] := by
    obtain ⟨x, hx, _⟩ := List.any_eq_true.mp hp
    intro e
    rw [e] at hx
    simp at hx
  have hemp : (compatibleAssets arch assets).isEmpty = false := by simpa using hne
  simp [find_best_asset, hemp, hw, hb]

theorem find_best_asset_priority_order_witness :
    firstPriorityMatch (compatibleAssets HostArch.x86_64
        [mkAsset "app.rpm", mkAsset "app.deb", mkAsset "app.AppImage"]) = some InstallType.Deb
    ∧ find_best_asset HostArch.x86_64
        [mkAsset "app.rpm", mkAsset "app.deb", mkAsset "app.AppImage"] none
      = (compatibleAssets HostArch.x86_64
          [mkAsset "app.rpm", mkAsset "app.deb", mkAsset "app.AppImage"]).find?
          (fun a => decide (a.detect_install_type = some InstallType.Deb)) :=
  ⟨by decide,
   (find_best_asset_priority_order HostArch.x86_64
      [mkAsset "app.rpm", mkAsset "app.deb", mkAsset "app.AppImage"]
      InstallType.Deb (by decide)).1⟩

/-- C3: the resolver returns none exactly when no asset is both
Linux-compatible and architecture-matching; when compatible assets exist
but none detects as any format, it falls back to the first compatible
asset. -/
theorem find_best_asset_none_iff_no_compatible (arch : HostArch) (assets : List ReleaseAsset)
    (pref : Option InstallType) :
    (find_best_asset arch assets pref = none ↔ compatibleAssets arch assets = [])
    ∧ (compatibleAssets arch assets ≠ [] →
       (∀ a ∈ compatibleAssets arch assets, a.detect_install_type = none) →
       find_best_asset arch assets pref = (compatibleAssets arch assets).head?) := by
  constructor
  · constructor
    · intro h
      by_contra hne
      have hemp : (compatibleAssets arch assets).isEmpty = false := by simpa using hne
      cases hcl : compatibleAssets arch assets with
      | nil => exact hne hcl
      | cons b bs =>
        cases pref with
        | none =>
          cases hw : priorityOrder.findSome?
              (fun t => (compatibleAssets arch assets).find?
                (fun a => decide (a.detect_install_type = some t))) with
          | some x => simp [find_best_asset, hemp, hw] at h
          | none =>
            simp [find_best_asset, hemp, hw] at h
            rw [hcl] at h
            simp at h
        | some p =>
          cases hf : (compatibleAssets arch assets).find?
              (fun a => decide (a.detect_install_type = some p)) with
          | some x => simp [find_best_asset, hemp, hf] at h
          | none =>
            cases hw : priorityOrder.findSome?
                (fun t => (compatibleAssets arch assets).find?
                  (fun a => decide (a.detect_install_type = some t))) with
            | some x => simp [find_best_asset, hemp, hf, hw] at h
            | none =>
              simp [find_best_asset, hemp, hf, hw] at h
              rw [hcl] at h
              simp at h
    · intro h
      have hemp : (compatibleAssets arch assets).isEmpty = true := by simp [h]
      simp [find_best_asset, hemp]
  · intro hne hall
    have hfind : ∀ t : InstallType, (compatibleAssets arch assets).find?
        (fun a => decide (a.detect_install_type = some t)) = none := by
      intro t
      rw [List.find?_eq_none]
      intro x hx
      simp [hall x hx]
    have hwalk : priorityOrder.findSome?
        (fun t => (compatibleAssets arch assets).find?
          (fun a => decide (a.detect_install_type = some t))) = none := by
      rw [List.findSome?_eq_none_iff]
      intro t _
      exact hfind t
    have hemp : (compatibleAssets arch assets).isEmpty = false := by simpa using hne
    cases pref with
    | none => simp [find_best_asset, hemp, hwalk]
    | some p => simp [find_best_asset, hemp, hfind p, hwalk]

theorem find_best_asset_none_iff_no_compatible_witness :
    (find_best_asset HostArch.x86_64 [mkAsset "app-windows-x64.zip"] none = none
      ↔ compatibleAssets HostArch.x86_64 [mkAsset "app-windows-x64.zip"] = [])
    ∧ find_best_asset HostArch.x86_64 [mkAsset "app-linux.zip"] none
        = (compatibleAssets HostArch.x86_64 [mkAsset "app-linux.zip"]).head? :=
  ⟨(find_best_asset_none_iff_no_compatible HostArch.x86_64 [mkAsset "app-windows-x64.zip"]
      none).1,
   (find_best_asset_none_iff_no_compatible HostArch.x86_64 [mkAsset "app-linux.zip"] none).2
      (by decide) (by decide)⟩

/-- C6: an asset whose lower-cased filename ends in ".flatpakref" and
contains neither "linux" nor any Windows/macOS marker is classified as
Flatpak by `detect_install_type`, yet `is_linux` rejects it (".flatpakref"
is not in the Linux suffix list), so `find_best_asset` can never return it
for any architecture, asset list, or preferred format. -/
theorem flatpakref_detected_but_never_selected (a : ReleaseAsset)
    (h1 : listEndsWith (lowerChars a.name.data) ".flatpakref".data = true)
    (h2 : containsChars (lowerChars a.name.data) "linux".data = false)
    (h3 : containsChars (lowerChars a.name.data) "windows".data = false)
    (h4 : containsChars (lowerChars a.name.data) ".exe".data = false)
    (h5 : containsChars (lowerChars a.name.data) ".msi".data = false)
    (h6 : containsChars (lowerChars a.name.data) "macos".data = false)
    (h7 : containsChars (lowerChars a.name.data) "darwin".data = false)
    (h8 : containsChars (lowerChars a.name.data) ".dmg".data = false) :
    a.detect_install_type = some InstallType.Flatpak
    ∧ a.is_linux = false
    ∧ ∀ (arch : HostArch) (assets : List ReleaseAsset) (pref : Option InstallType),
        find_best_asset arch assets pref ≠ some a := by
  have hdeb := listEndsWith_excl ".deb".data h1 (by decide) (by decide)
  have hrpm := listEndsWith_excl ".rpm".data h1 (by decide) (by decide)
  have happ := listEndsWith_excl ".appimage".data h1 (by decide) (by decide)
  have hsnap := listEndsWith_excl ".snap".data h1 (by decide) (by decide)
  have hflat := listEndsWith_excl ".flatpak".data h1 (by decide) (by decide)
  have htgz := listEndsWith_excl ".tar.gz".data h1 (by decide) (by decide)
  have htxz := listEndsWith_excl ".tar.xz".data h1 (by decide) (by decide)
  have htbz := listEndsWith_excl ".tar.bz2".data h1 (by decide) (by decide)
  have hlinux : a.is_linux = false := by
    simp [ReleaseAsset.is_linux, h2, h3, h4, h5, h6, h7, h8,
      hdeb, hrpm, happ, hsnap, hflat, htgz, htxz, htbz]
  refine ⟨?_, hlinux, ?_⟩
  · simp [ReleaseAsset.detect_install_type, hdeb, hrpm, happ, h1]
  · intro arch assets pref hsel
    have hlin := (compat_props_of_find_best_asset hsel).1
    rw [hlinux] at hlin
    exact Bool.noConfusion hlin

theorem flatpakref_detected_but_never_selected_witness :
    (mkAsset "tool.flatpakref").detect_install_type = some InstallType.Flatpak
    ∧ (mkAsset "tool.flatpakref").is_linux = false
    ∧ find_best_asset HostArch.x86_64 [mkAsset "tool.flatpakref"] none
        ≠ some (mkAsset "tool.flatpakref") := by
  have h := flatpakref_detected_but_never_selected (mkAsset "tool.flatpakref")
    (by decide) (by decide) (by decide) (by decide) (by decide) (by decide) (by decide) (by decide)
  exact ⟨h.1, h.2.1, h.2.2 HostArch.x86_64 [mkAsset "tool.flatpakref"] none⟩

/-- C9: when the elevated dpkg invocation of a Deb install exits non-zero,
exactly one dependency-repair pass runs (the command trace is precisely
dpkg then apt-get), and the install succeeds iff the repair pass succeeds
(so it errors iff both fail); every other format runs at most one package
tool (besides the `which` probe) and fails on its first non-zero exit, and
AppImage/Binary/Source installs run no external command at all. -/
theorem install_deb_single_repair_retry (inst : Installer) (env : Env) (path : String) :
    (env.run (dpkgInstallCmd path) = some false →
      ((inst.install env path InstallType.Deb).result = Except.ok ()
        ↔ env.run aptFixCmd = some true)
      ∧ (inst.install env path InstallType.Deb).cmds = [dpkgInstallCmd path, aptFixCmd])
    ∧ (env.run (rpmChosenCmd env path) = some false →
        (inst.install env path InstallType.Rpm).result
          = Except.error "Failed to install rpm package"
        ∧ (inst.install env path InstallType.Rpm).cmds = [whichCmd "dnf", rpmChosenCmd env path])
    ∧ (env.run (flatpakChosenCmd path) = some false →
        (inst.install env path InstallType.Flatpak).result
          = Except.error (if listEndsWith path.data ".flatpakref".data then
              "Failed to install flatpakref" else "Failed to install flatpak bundle")
        ∧ (inst.install env path InstallType.Flatpak).cmds = [flatpakChosenCmd path])
    ∧ (env.run (snapInstallCmd path) = some false →
        (inst.install env path InstallType.Snap).result
          = Except.error "Failed to install snap package"
        ∧ (inst.install env path InstallType.Snap).cmds = [snapInstallCmd path])
    ∧ (inst.install env path InstallType.AppImage).cmds = []
    ∧ (inst.install env path InstallType.Binary).cmds = []
    ∧ (inst.install env path InstallType.Source).cmds = [] := by
  refine ⟨?_, ?_, ?_, ?_, ?_, ?_, rfl⟩
  · intro h
    cases hfix : env.run aptFixCmd with
    | none => simp [Installer.install, Installer.install_deb, h, hfix]
    | some b => cases b <;> simp [Installer.install, Installer.install_deb, h, hfix]
  · intro h
    simp [Installer.install, Installer.install_rpm, h]
  · intro h
    simp [Installer.install, Installer.install_flatpak, h]
  · intro h
    simp [Installer.install, Installer.install_snap, h]
  · cases hf : fileName path with
    | none => simp [Installer.install, Installer.install_appimage, hf]
    | some fn =>
      cases hd : env.data_dir <;> simp [Installer.install, Installer.install_appimage, hf, hd]
  · cases hh : env.home_dir with
    | none => simp [Installer.install, Installer.install_binary, hh]
    | some home =>
      cases hf : fileName path <;> simp [Installer.install, Installer.install_binary, hh, hf]

theorem install_deb_single_repair_retry_witness :
    (((testInstaller.install envAllFail "pkg.deb" InstallType.Deb).result = Except.ok ()
        ↔ envAllFail.run aptFixCmd = some true)
      ∧ (testInstaller.install envAllFail "pkg.deb" InstallType.Deb).cmds
          = [dpkgInstallCmd "pkg.deb", aptFixCmd])
    ∧ (testInstaller.install envAllFail "pkg.deb" InstallType.Rpm).cmds
        = [whichCmd "dnf", rpmChosenCmd envAllFail "pkg.deb"]
    ∧ (testInstaller.install envAllFail "pkg.deb" InstallType.Snap).cmds
        = [snapInstallCmd "pkg.deb"] := by
  have h := install_deb_single_repair_retry testInstaller envAllFail "pkg.deb"
  exact ⟨h.1 rfl, (h.2.1 rfl).2, (h.2.2.2.1 rfl).2⟩
